import Mathlib

/-!
# 01-variable-shadowing/main.go

A shallow embedding of the CSV exporter of `01-variable-shadowing/main.go`:
`run` (destination selection, header write, the producer goroutine, the
`for { select { ... } }` coordinator loop and the deferred flush), `logger`,
`errAndExit` and the part of `main` that follows `run`.

The program is concurrent and talks to the operating system.  Everything the
source does not decide is an explicit input of the model:

* `Env` holds the results of the library calls (`os.OpenFile`, the error a
  `writer.Write` call returns, the error the final flush meets);
* a schedule, `List Tick`, holds for each iteration of the loop the cases of
  the `select` that are ready and the one the Go runtime picks among them.

The effects of a run are recorded, in program order, in a trace.
-/

namespace VariableShadowing

/-! ## Values -/

/-- Go `error` values met by the program: an error made of a message
(`fmt.Errorf`, and the errors of the operating system), and the two errors a
context reports. -/
inductive GoError where
  | errorString (msg : String)
  | canceled
  | deadlineExceeded
  deriving DecidableEq

/-- The `Error()` method. -/
def GoError.Error : GoError → String
  | .errorString msg => msg
  | .canceled => "context canceled"
  | .deadlineExceeded => "context deadline exceeded"

/-- The call `fmt.Errorf(msg + "%v", err)`: a new error whose message is
`msg` followed by the text of `err` (the verb is `%v`, so only the text of
`err` is kept). -/
def Errorf (msg : String) (err : GoError) : GoError :=
  .errorString (msg ++ err.Error)

/-- The value of `ctx.Err()` once `ctx.Done()` is closed. -/
inductive CtxErr where
  | canceled
  | deadlineExceeded
  deriving DecidableEq

/-- The error value `ctx.Err()` returns. -/
def CtxErr.toError : CtxErr → GoError
  | .canceled => .canceled
  | .deadlineExceeded => .deadlineExceeded

/-- The type `config` (lines 29-34). -/
structure config where
  quiet : Bool
  verbose : Bool
  outputFile : String
  deriving DecidableEq

/-- The streams of the process: `os.Stdout`, `os.Stderr`, and a file opened by
`os.OpenFile`. -/
inductive Handle where
  | stdout
  | stderr
  | file (path : String)
  deriving DecidableEq

/-- How a call of `writer.Flush()` ends: the buffer reached the destination,
the destination (or an earlier write) reported an error, which `csv.Writer`
keeps to itself, or the call panicked. -/
inductive FlushRes where
  | ok
  | failed (err : GoError)
  | panic
  deriving DecidableEq

/-- The result of a flush whose write to the destination ends with `err`. -/
def FlushRes.ofErr : Option GoError → FlushRes
  | none => .ok
  | some e => .failed e

/-- One observable action of the program. -/
inductive Effect where
  /-- The call `os.OpenFile(path, os.O_CREATE|os.O_WRONLY, 0600)` and its error. -/
  | openFile (path : String) (err : Option GoError)
  /-- The call `csv.NewWriter(dst)`; `none` is the nil `io.Writer`. -/
  | newWriter (dst : Option Handle)
  /-- The call `writer.Write(row)` and the error it returned. -/
  | write (row : List String) (err : Option GoError)
  /-- A call of the `log` callback with this format string. -/
  | log (format : String)
  /-- The call `writer.Flush()`. -/
  | flush (res : FlushRes)
  /-- The deferred `dst.Close()` of the file branch. -/
  | close
  /-- The call `fmt.Fprint(os.Stderr, s)`. -/
  | stderr (s : String)
  /-- The call `os.Exit(code)`. -/
  | osExit (code : Nat)
  deriving DecidableEq

/-! ## The environment -/

/-- Results of the library calls that the source does not decide. -/
structure Env where
  /-- Error of `os.OpenFile`, `none` when the file opens. -/
  openErr : Option GoError
  /-- Error met by the `n`-th call of `writer.Write` (the header is call 0). -/
  writeErr : Nat → Option GoError
  /-- Error the `Write` of the destination returns when the final flush writes
  the buffer, such as ENOSPC or EBADF. -/
  flushErr : Option GoError

/-- The cases of the `select` of lines 108-121, in source order. -/
inductive Case where
  | recv
  | timeout
  | done
  deriving DecidableEq

/-- What is ready when the `select` of one iteration proceeds. -/
structure Ready where
  /-- The receive `<-outChan` can proceed: the producer is sending or has closed. -/
  recv : Bool
  /-- The 5 second timer of this iteration has fired. -/
  timeout : Bool
  /-- The channel `ctx.Done()` is closed, with the value of `ctx.Err()`. -/
  done : Option CtxErr
  deriving DecidableEq

/-- One iteration of the loop as the runtime decides it: the ready cases and
the case the `select` takes. -/
structure Tick where
  ready : Ready
  chosen : Case
  deriving DecidableEq

/-- The chosen case is one of the ready ones. -/
def Tick.ok (t : Tick) : Bool :=
  match t.chosen with
  | .recv => t.ready.recv
  | .timeout => t.ready.timeout
  | .done => t.ready.done.isSome

/-! ## The CSV writer

The type `csv.Writer` is the standard library's.  It wraps a `bufio.Writer` of
4096 bytes around the destination, so a `Write` appends the row to the buffer.
The source provides for a `Write` that returns an error, and `Env.writeErr`
decides when one does; such an error stays in the `bufio.Writer`, and `Flush`
then returns at once without touching the destination.  Otherwise `Flush`,
when the buffer is not empty, calls `Write` on the destination, which is a
call on a nil interface value, hence a panic, when the destination is nil.
`csv.Writer.Flush` returns nothing: an error of the flush stays inside the
writer, where only `writer.Error()` would show it. -/

/-- State of a `*csv.Writer`. -/
structure Writer where
  /-- The `io.Writer` given to `csv.NewWriter`, `none` for nil. -/
  dst : Option Handle
  /-- Number of `Write` calls made. -/
  calls : Nat
  /-- Number of rows held in the buffer. -/
  buffered : Nat
  /-- The error the underlying `bufio.Writer` holds. -/
  err : Option GoError
  deriving DecidableEq

/-- The call `csv.NewWriter(dst)`. -/
def NewWriter (dst : Option Handle) : Writer := ⟨dst, 0, 0, none⟩

/-- The call `writer.Write(row)`: the new state of the writer and the error
returned. -/
def Writer.Write (env : Env) (w : Writer) : Writer × Option GoError :=
  match w.err with
  | some e => (⟨w.dst, w.calls + 1, w.buffered, some e⟩, some e)
  | none =>
    match env.writeErr w.calls with
    | some e => (⟨w.dst, w.calls + 1, w.buffered, some e⟩, some e)
    | none => (⟨w.dst, w.calls + 1, w.buffered + 1, none⟩, none)

/-- The call `writer.Flush()`. -/
def Writer.Flush (env : Env) (w : Writer) : FlushRes :=
  match w.err with
  | some e => .failed e
  | none =>
    if w.buffered = 0 then .ok
    else
      match w.dst with
      | none => .panic
      | some _ => FlushRes.ofErr env.flushErr

/-! ## run -/

/-- Line 88. -/
def header : List String := ["Email", "Status", "Balance"]

/-- Lines 95-99: the rows the producer goroutine sends, in order, before it
closes `outChan`. -/
def records : List (List String) :=
  [["john@example.com", "active", "$100.00"],
   ["jane@example.com", "inactive", "$50.00"],
   ["bob@example.com", "active", "$75.00"]]

/-- Lines 106-122, the coordinator loop.  `k` is the number of records
received so far, so that the next receive yields `records[k]`, or the closed
channel when there is none.  The result is the trace of the loop, the value of
the `return` statement reached and the writer; `none` when the schedule ends
before the loop does, or names a case that is not ready. -/
def loop (env : Env) :
    Writer → Nat → List Tick → Option (List Effect × Option GoError × Writer)
  | _, _, [] => none
  | w, k, t :: rest =>
    match t.chosen with
    | .recv =>
      if t.ready.recv then
        match records[k]? with
        | none => some ([], none, w)
        | some record =>
          match w.Write env with
          | (w1, some err) =>
            some ([.write record (some err)],
              some (Errorf "failed to write header row: " err), w1)
          | (w1, none) =>
            (loop env w1 (k + 1) rest).map
              fun r => (.write record none :: r.1, r.2.1, r.2.2)
      else none
    | .timeout =>
      if t.ready.timeout then some ([.log "\nGiving up waiting..."], none, w)
      else none
    | .done =>
      match t.ready.done with
      | some e => some ([], some e.toError, w)
      | none => none

/-- How a call of `run` ends: it returns an error value (nil is `none`), or a
deferred call panics. -/
inductive Outcome where
  | returned (err : Option GoError)
  | panicked
  deriving DecidableEq

/-- A finished call of `run`. -/
structure RunResult where
  trace : List Effect
  outcome : Outcome
  deriving DecidableEq

/-- Lines 82-122: `run` from `csv.NewWriter(dst)` on, with the deferred
function of lines 83-86, which runs after the `return` statement. -/
def runWriter (env : Env) (dst : Option Handle) (sched : List Tick) :
    Option RunResult :=
  let writer := NewWriter dst
  let body : Option (List Effect × Option GoError × Writer) :=
    match writer.Write env with
    | (w1, some err) =>
      some ([.write header (some err)],
        some (Errorf "failed to write header row: " err), w1)
    | (w1, none) =>
      (loop env w1 0 sched).map
        fun r => (.write header none :: r.1, r.2.1, r.2.2)
  body.map fun r =>
    let res := r.2.2.Flush env
    ⟨.newWriter dst :: r.1 ++ [.log "Flushing writer...", .flush res],
      if res = .panic then .panicked else .returned r.2.1⟩

/-- The function `run` (lines 70-123).  In the file branch, line 73 declares
a new `dst` with `:=`, so the `dst` of line 71 that `csv.NewWriter` receives
is still nil; the deferred `dst.Close()` runs last, also after a panic. -/
def run (cfg : config) (env : Env) (sched : List Tick) : Option RunResult :=
  if cfg.outputFile ≠ "" then
    match env.openErr with
    | some err =>
      some ⟨[.openFile cfg.outputFile (some err)],
        .returned (some (Errorf "failed to open file: " err))⟩
    | none =>
      (runWriter env none sched).map
        fun r => ⟨.openFile cfg.outputFile none :: r.trace ++ [.close], r.outcome⟩
  else
    runWriter env (some .stdout) sched

/-! ## logger and main -/

/-- The function `logger` (lines 154-166).  `Sprintf` is the formatting of
`fmt.Fprintf`; the result lists the writes made, each with its stream. -/
def logger {α : Type} (Sprintf : String → List α → String) (cfg : config)
    (format : String) (args : List α) : List (Handle × String) :=
  if cfg.quiet then []
  else if cfg.verbose then [(.stderr, Sprintf format args), (.stderr, "\n")]
  else []

/-- The constant `usage` (lines 20-27). -/
def usage : String :=
  "Usage: app [OPTIONS]\n\nOptions:\n" ++
  "  -o <file>     Write the output to a file.\n" ++
  "  -v            Enable verbose logging.\n" ++
  "  -q            Disable all logging. Useful in CI/CD pipelines.\n" ++
  "  -h            Show this help message.\n"

/-- The function `usageAndExit` (lines 136-144); `flag.Usage` is the function
set at lines 37-39, which prints `usage`. -/
def usageAndExit (msg : String) : List Effect :=
  (if msg ≠ "" then [.stderr msg, .stderr "\n\n"] else []) ++
    [.stderr usage, .stderr "\n", .osExit 1]

/-- The function `errAndExit` (lines 146-150). -/
def errAndExit (msg : String) : List Effect :=
  [.stderr msg, .stderr "\n", .osExit 1]

/-- The function `flagsToConfig` (lines 125-134), given the parsed flags. -/
def flagsToConfig (o : String) (v q : Bool) : config × Option GoError :=
  (⟨q, v, o⟩, none)

/-- A finished process: its trace and exit status. -/
structure MainResult where
  trace : List Effect
  status : Nat
  deriving DecidableEq

/-- The function `main` (lines 36-68) on its own goroutine, given the parsed
flags.  The signal goroutine of lines 56-61 acts on `main` only through the
context, which the schedule describes.  A panic leaves `run` and ends the
process with status 2. -/
def main (o : String) (v q : Bool) (env : Env) (sched : List Tick) :
    Option MainResult :=
  match flagsToConfig o v q with
  | (_, some err) => some ⟨usageAndExit err.Error, 1⟩
  | (cfg, none) =>
    (run cfg env sched).map fun r =>
      match r.outcome with
      | .returned (some err) => ⟨r.trace ++ errAndExit err.Error, 1⟩
      | .returned none => ⟨r.trace ++ [.log "Done."], 0⟩
      | .panicked => ⟨r.trace, 2⟩

/-! ## Reading a trace -/

/-- The effect is a call of `writer.Write`. -/
def Effect.isWrite : Effect → Bool
  | .write _ _ => true
  | _ => false

/-- The effect is a call of `writer.Flush`. -/
def Effect.isFlush : Effect → Bool
  | .flush _ => true
  | _ => false

/-- The effect is a call of the `log` callback. -/
def Effect.isLog : Effect → Bool
  | .log _ => true
  | _ => false

/-- The calls of `writer.Write` of a trace, in order: each row with the error
returned. -/
def writes : List Effect → List (List String × Option GoError)
  | [] => []
  | .write row err :: tr => (row, err) :: writes tr
  | _ :: tr => writes tr

/-- The effects that follow the first call of `writer.Flush`. -/
def afterFlush : List Effect → List Effect
  | [] => []
  | .flush _ :: tr => tr
  | _ :: tr => afterFlush tr

/-- Every `select` of the schedule takes a case that is ready. -/
def Admissible (sched : List Tick) : Prop := ∀ t ∈ sched, t.ok = true

instance (sched : List Tick) : Decidable (Admissible sched) := by
  unfold Admissible
  infer_instance

/-- The `select` takes the receive, which is ready. -/
def Tick.takesRecv (t : Tick) : Prop := t.chosen = .recv ∧ t.ready.recv = true

instance (t : Tick) : Decidable t.takesRecv := by
  unfold Tick.takesRecv
  infer_instance

/-- The writer after `n` more calls of `Write` that returned nil. -/
def Writer.wrote (w : Writer) (n : Nat) : Writer :=
  ⟨w.dst, w.calls + n, w.buffered + n, none⟩

/-! ## Concrete inputs -/

/-- No library call fails. -/
def envOk : Env := ⟨none, fun _ => none, none⟩

/-- The `select` takes the receive, the only ready case. -/
def tRecv : Tick := ⟨⟨true, false, none⟩, .recv⟩

/-- The `select` takes the timer, the only ready case. -/
def tTimeout : Tick := ⟨⟨false, true, none⟩, .timeout⟩

/-- The context is done with error `e`, the producer is not ready, and the
`select` takes the cancellation. -/
def tDone (e : CtxErr) : Tick := ⟨⟨false, false, some e⟩, .done⟩

/-- The context is done with error `e`, the producer is ready too, and the
`select` takes the receive. -/
def tRecvWhileDone (e : CtxErr) : Tick := ⟨⟨true, false, some e⟩, .recv⟩

/-- The error `os.Stdout.Write` returns to the final flush when standard output
is redirected to a file on a device that is full (ENOSPC). -/
def errNoSpace : GoError :=
  .errorString "write /dev/stdout: no space left on device"

/-- The write of row 2, the second record, fails. -/
def envWriteFails : Env :=
  ⟨none, fun n => if n = 2 then some (.errorString "short write") else none, none⟩

/-- Configuration of a run without flags. -/
def cfgStdout : config := ⟨false, false, ""⟩

/-- Configuration of a run with `-o out.csv`. -/
def cfgFile : config := ⟨false, false, "out.csv"⟩

/-! ## Auxiliary facts -/

/-- A flush that reaches a destination does not panic. -/
theorem ofErr_ne_panic (o : Option GoError) : FlushRes.ofErr o ≠ FlushRes.panic := by
  cases o <;> simp [FlushRes.ofErr]

/-- The text of the error of a failed write: the message of lines 90 and 114,
then the text of the write error. -/
theorem Errorf_write (e : GoError) :
    Errorf "failed to write header row: " e =
      .errorString ("failed to write header row: " ++ e.Error) :=
  rfl

/-- The calls of `writer.Write` of two traces, one after the other. -/
theorem writes_append (a b : List Effect) : writes (a ++ b) = writes a ++ writes b := by
  induction a with
  | nil => rfl
  | cons x a ih => cases x <;> simp [writes, ih]

/-- The calls of `writer.Write` of a trace made of successful writes. -/
theorem writes_map_write (rows : List (List String)) :
    writes (rows.map fun row => Effect.write row none) = rows.map fun row => (row, none) := by
  induction rows with
  | nil => rfl
  | cons x rows ih => simp [writes, ih]

/-- The writer after `n` successful writes over a destination that is not nil
flushes to it. -/
theorem flush_wrote_some (env : Env) (h : Handle) (n : Nat) :
    ((NewWriter (some h)).wrote (n + 1)).Flush env = FlushRes.ofErr env.flushErr := by
  simp [Writer.Flush, Writer.wrote, NewWriter]

/-- The writer after `n` successful writes over the nil destination panics
when flushed. -/
theorem flush_wrote_nil (env : Env) (n : Nat) :
    ((NewWriter none).wrote (n + 1)).Flush env = FlushRes.panic := by
  simp [Writer.Flush, Writer.wrote, NewWriter]

/-- Whether a flush panics does not depend on the error the destination
reports. -/
theorem flush_panic_flushErr (o o2 : Option GoError) (wr : Nat → Option GoError)
    (f f2 : Option GoError) (w : Writer) :
    (w.Flush ⟨o, wr, f⟩ = .panic) ↔ (w.Flush ⟨o2, wr, f2⟩ = .panic) := by
  obtain ⟨d, c, b, e⟩ := w
  cases e <;> cases d <;> by_cases hb : b = 0 <;> simp [Writer.Flush, hb, ofErr_ne_panic]

/-- What follows the flush, when nothing before it is a flush. -/
theorem afterFlush_append (a b : List Effect) (res : FlushRes)
    (ha : ∀ x ∈ a, x.isFlush = false) : afterFlush (a ++ .flush res :: b) = b := by
  induction a with
  | nil => rfl
  | cons x a ih =>
    have hx := ha x (List.mem_cons_self _ _)
    have := ih fun y hy => ha y (List.mem_cons_of_mem _ hy)
    cases x <;> simp_all [afterFlush, Effect.isFlush]

/-! ## The loop -/

/-- Receiving records whose writes succeed: the loop writes them in the
producer's order and goes on with the rest of the schedule. -/
theorem loop_recvs (env : Env) (ts rest : List Tick) :
    ∀ (w : Writer) (k : Nat), (∀ t ∈ ts, t.takesRecv) → w.err = none →
      (∀ j, j < ts.length → env.writeErr (w.calls + j) = none) →
      k + ts.length ≤ records.length →
      loop env w k (ts ++ rest) =
        (loop env (w.wrote ts.length) (k + ts.length) rest).map
          fun r => (((records.drop k).take ts.length).map (fun row => Effect.write row none) ++ r.1,
            r.2.1, r.2.2) := by
  induction ts with
  | nil =>
    intro w k _ hw _ _
    obtain ⟨d, c, b, e⟩ := w
    simp only at hw
    subst hw
    simp [Writer.wrote]
  | cons t ts ih =>
    intro w k hts hw hwr hk
    have ht := hts t (List.mem_cons_self _ _)
    have hk3 : k < records.length := by simp at hk ⊢; omega
    have h0 := hwr 0 (by simp)
    simp only [Nat.add_zero] at h0
    have hrec : records[k]? = some records[k] := List.getElem?_eq_getElem hk3
    have hih := ih (w.wrote 1) (k + 1) (fun t ht => hts t (List.mem_cons_of_mem _ ht)) rfl
      (fun j hj => by
        have := hwr (j + 1) (by simp; omega)
        simpa [Writer.wrote, Nat.add_assoc, Nat.add_comm 1 j] using this)
      (by simp at hk ⊢; omega)
    have hdrop : records.drop k = records[k] :: records.drop (k + 1) :=
      List.drop_eq_getElem_cons hk3
    simp only [List.cons_append, loop, ht.1, ht.2, if_true, hrec, Writer.Write, hw, h0]
    have e1 : (⟨w.dst, w.calls + 1, w.buffered + 1, none⟩ : Writer) = w.wrote 1 := rfl
    rw [e1, List.append_eq, hih]
    have e2 : (w.wrote 1).wrote ts.length = w.wrote (t :: ts).length := by
      simp [Writer.wrote, Nat.add_assoc, Nat.add_comm 1]
    have e3 : k + 1 + ts.length = k + (t :: ts).length := by simp; omega
    rw [e2, e3, hdrop]
    cases loop env (w.wrote (t :: ts).length) (k + (t :: ts).length) rest <;> simp [List.take]

/-- An admissible schedule that is long enough ends the loop. -/
theorem loop_total (env : Env) (sched : List Tick) :
    ∀ (w : Writer) (k : Nat), Admissible sched → sched ≠ [] →
      records.length < k + sched.length → (loop env w k sched).isSome = true := by
  induction sched with
  | nil => intro w k _ h; exact absurd rfl h
  | cons t rest ih =>
    intro w k hadm _ hlen
    have ht : t.ok = true := hadm t (List.mem_cons_self _ _)
    have hrest : Admissible rest := fun x hx => hadm x (List.mem_cons_of_mem _ hx)
    unfold loop
    cases hc : t.chosen with
    | recv =>
      simp only [Tick.ok, hc] at ht
      simp only [ht, if_true]
      cases hr : records[k]? with
      | none => simp
      | some record =>
        have hk : k < records.length := by
          by_contra hcon
          rw [List.getElem?_eq_none (by omega)] at hr
          exact Option.noConfusion hr
        have hne : rest ≠ [] := by
          intro h; subst h; simp at hlen; omega
        have hl : records.length < k + 1 + rest.length := by simp at hlen ⊢; omega
        simp only [Writer.Write]
        cases hwe : w.err with
        | some e => simp
        | none =>
          cases hwr : env.writeErr w.calls with
          | some e => simp
          | none =>
            have := ih ⟨w.dst, w.calls + 1, w.buffered + 1, none⟩ (k + 1) hrest hne hl
            simpa using this
    | timeout =>
      simp only [Tick.ok, hc] at ht
      simp [ht]
    | done =>
      simp only [Tick.ok, hc] at ht
      cases hd : t.ready.done with
      | none => simp [hd] at ht
      | some e => simp

/-- The loop on its own does not read the error of the final flush. -/
theorem loop_flushErr (o o2 : Option GoError) (wr : Nat → Option GoError)
    (f f2 : Option GoError) (sched : List Tick) :
    ∀ (w : Writer) (k : Nat), loop ⟨o, wr, f⟩ w k sched = loop ⟨o2, wr, f2⟩ w k sched := by
  induction sched with
  | nil => intro w k; rfl
  | cons t rest ih =>
    intro w k
    simp only [loop, Writer.Write, ih]

/-- The trace of the loop holds calls of `writer.Write` and at most the
notice of the stall timeout. -/
theorem loop_trace (env : Env) (sched : List Tick) :
    ∀ (w : Writer) (k : Nat) (r : List Effect × Option GoError × Writer),
      loop env w k sched = some r →
      ∀ x ∈ r.1, x.isWrite = true ∨ x = Effect.log "\nGiving up waiting..." := by
  induction sched with
  | nil => intro w k r h; simp [loop] at h
  | cons t rest ih =>
    intro w k r h
    unfold loop at h
    split at h
    · split at h
      · split at h
        · cases h; simp
        · split at h
          · cases h; simp [Effect.isWrite]
          · rename_i w1 _
            cases hl : loop env w1 (k + 1) rest with
            | none => simp [hl] at h
            | some r1 =>
              simp only [hl, Option.map_some', Option.some.injEq] at h
              subst h
              intro x hx
              simp only [List.mem_cons] at hx
              rcases hx with rfl | hx
              · simp [Effect.isWrite]
              · exact ih w1 (k + 1) r1 hl x hx
      · cases h
    · split at h
      · cases h; simp
      · cases h
    · split at h
      · cases h; simp
      · cases h

/-! ## The shape of a run -/

/-- Lines 82-122 after receiving records whose writes succeed. -/
theorem runWriter_recvs (env : Env) (dst : Option Handle) (ts rest : List Tick)
    (hts : ∀ t ∈ ts, t.takesRecv) (hw : ∀ j, j ≤ ts.length → env.writeErr j = none)
    (hlen : ts.length ≤ records.length) :
    runWriter env dst (ts ++ rest) =
      (loop env ((NewWriter dst).wrote (ts.length + 1)) ts.length rest).map fun r =>
        ⟨.newWriter dst :: .write header none ::
            ((records.take ts.length).map fun row => Effect.write row none) ++ r.1 ++
            [.log "Flushing writer...", .flush (r.2.2.Flush env)],
          if r.2.2.Flush env = .panic then .panicked else .returned r.2.1⟩ := by
  have h0 := hw 0 (Nat.zero_le _)
  have hl := loop_recvs env ts rest ((NewWriter dst).wrote 1) 0 hts rfl
    (fun j hj => by
      have := hw (j + 1) (by omega)
      simpa [Writer.wrote, NewWriter, Nat.add_comm 1 j] using this)
    (by omega)
  have e1 : ((NewWriter dst).wrote 1).wrote ts.length = (NewWriter dst).wrote (ts.length + 1) := by
    simp [Writer.wrote, NewWriter, Nat.add_comm 1]
  rw [e1] at hl
  simp only [Nat.zero_add, List.drop_zero] at hl
  have e2 : (⟨dst, 0 + 1, 0 + 1, none⟩ : Writer) = (NewWriter dst).wrote 1 := rfl
  simp only [runWriter, NewWriter, Writer.Write, h0]
  have e3 : (⟨dst, 0, 0, none⟩ : Writer) = NewWriter dst := rfl
  rw [e2, e3, hl]
  cases loop env ((NewWriter dst).wrote (ts.length + 1)) ts.length rest <;> simp

/-- Lines 82-122: the writer is created, the body writes rows and at most
logs the stall notice, then the deferred function logs and flushes. -/
theorem runWriter_shape (env : Env) (dst : Option Handle) (sched : List Tick) (r : RunResult)
    (h : runWriter env dst sched = some r) :
    ∃ body res, r.trace = .newWriter dst :: body ++ [.log "Flushing writer...", .flush res] ∧
      ∀ x ∈ body, x.isWrite = true ∨ x = Effect.log "\nGiving up waiting..." := by
  unfold runWriter at h
  simp only at h
  split at h
  · simp only [Option.map_some', Option.some.injEq] at h
    subst h
    exact ⟨_, _, rfl, by simp [Effect.isWrite]⟩
  · rename_i w1 _
    cases hl : loop env w1 0 sched with
    | none => simp [hl] at h
    | some r1 =>
      simp only [hl, Option.map_some', Option.some.injEq] at h
      subst h
      refine ⟨_, _, rfl, ?_⟩
      intro x hx
      simp only [List.mem_cons] at hx
      rcases hx with rfl | hx
      · simp [Effect.isWrite]
      · exact loop_trace env sched w1 0 r1 hl x hx

/-- An admissible schedule with more ticks than there are records completes
lines 82-122. -/
theorem runWriter_total (env : Env) (dst : Option Handle) (sched : List Tick)
    (hadm : Admissible sched) (hlen : records.length < sched.length) :
    ∃ r, runWriter env dst sched = some r := by
  have hne : sched ≠ [] := by intro h; subst h; simp at hlen
  have hl := loop_total env sched
  unfold runWriter
  simp only
  split
  · exact ⟨_, rfl⟩
  · rename_i w1 _
    have := hl w1 0 hadm hne (by omega)
    obtain ⟨r1, hr1⟩ := Option.isSome_iff_exists.mp this
    exact ⟨_, by rw [hr1]; rfl⟩

/-- An admissible schedule with more ticks than there are records completes
`run`. -/
theorem run_total (cfg : config) (env : Env) (sched : List Tick)
    (hadm : Admissible sched) (hlen : records.length < sched.length) :
    ∃ r, run cfg env sched = some r := by
  unfold run
  split
  · split
    · exact ⟨_, rfl⟩
    · obtain ⟨r, hr⟩ := runWriter_total env none sched hadm hlen
      exact ⟨_, by rw [hr]; rfl⟩
  · exact runWriter_total env _ sched hadm hlen

/-- The trace of a finished `run`: either the file did not open, or the run
created its writer, wrote, and ended with the deferred log and flush, followed
in the file branch by the deferred close. -/
theorem run_shape (cfg : config) (env : Env) (sched : List Tick) (r : RunResult)
    (h : run cfg env sched = some r) :
    (∃ err, r.trace = [.openFile cfg.outputFile (some err)] ∧
      r.outcome = .returned (some (Errorf "failed to open file: " err))) ∨
    ∃ pre body res post,
      r.trace = pre ++ body ++ [.log "Flushing writer...", .flush res] ++ post ∧
      (pre = [.newWriter (some .stdout)] ∧ post = [] ∨
        pre = [.openFile cfg.outputFile none, .newWriter none] ∧ post = [.close]) ∧
      ∀ x ∈ body, x.isWrite = true ∨ x = Effect.log "\nGiving up waiting..." := by
  unfold run at h
  split at h
  · split at h
    · simp only [Option.some.injEq] at h
      subst h
      exact Or.inl ⟨_, rfl, rfl⟩
    · cases hr : runWriter env none sched with
      | none => simp [hr] at h
      | some r1 =>
        simp only [hr, Option.map_some', Option.some.injEq] at h
        subst h
        obtain ⟨body, res, htr, hb⟩ := runWriter_shape env none sched r1 hr
        exact Or.inr ⟨_, body, res, _, by simp [htr], Or.inr ⟨rfl, rfl⟩, hb⟩
  · obtain ⟨body, res, htr, hb⟩ := runWriter_shape env _ sched r h
    exact Or.inr ⟨_, body, res, _, by simp [htr], Or.inl ⟨rfl, rfl⟩, hb⟩

/-- Nothing that precedes the deferred flush is a flush. -/
theorem before_flush (cfg : config) (pre body post : List Effect)
    (hpp : pre = [.newWriter (some .stdout)] ∧ post = [] ∨
      pre = [.openFile cfg.outputFile none, .newWriter none] ∧ post = [.close])
    (hb : ∀ x ∈ body, x.isWrite = true ∨ x = Effect.log "\nGiving up waiting...") :
    ∀ x ∈ pre ++ body ++ [.log "Flushing writer..."], x.isFlush = false := by
  intro x hx
  simp only [List.mem_append, List.mem_singleton] at hx
  rcases hx with (hx | hx) | rfl
  · rcases hpp with ⟨rfl, _⟩ | ⟨rfl, _⟩
    · simp only [List.mem_singleton] at hx
      subst hx
      rfl
    · simp only [List.mem_cons, List.mem_singleton, List.not_mem_nil, or_false] at hx
      rcases hx with rfl | rfl <;> rfl
  · rcases hb x hx with h | rfl
    · cases x <;> simp_all [Effect.isWrite, Effect.isFlush]
    · rfl
  · rfl

/-- The `log` callback is called by `run` with two format strings only. -/
theorem run_logs (cfg : config) (env : Env) (sched : List Tick) (r : RunResult)
    (h : run cfg env sched = some r) (f : String) (hf : Effect.log f ∈ r.trace) :
    f = "Flushing writer..." ∨ f = "\nGiving up waiting..." := by
  rcases run_shape cfg env sched r h with ⟨err, htr, _⟩ | ⟨pre, body, res, post, htr, hpp, hb⟩
  · rw [htr] at hf
    simp at hf
  · rw [htr] at hf
    simp only [List.mem_append, List.mem_cons, List.mem_singleton, List.not_mem_nil,
      or_false] at hf
    rcases hf with ((hf | hf) | hf) | hf
    · rcases hpp with ⟨rfl, _⟩ | ⟨rfl, _⟩ <;> simp at hf
    · rcases hb _ hf with h1 | h1
      · simp [Effect.isWrite] at h1
      · exact Or.inr (Effect.log.inj h1)
    · rcases hf with hf | hf
      · exact Or.inl (Effect.log.inj hf)
      · cases hf
    · rcases hpp with ⟨_, rfl⟩ | ⟨_, rfl⟩ <;> simp at hf

/-- The outcome of `run` does not depend on the error the destination reports
to the final flush. -/
theorem run_outcome_flushErr (cfg : config) (o : Option GoError) (wr : Nat → Option GoError)
    (f f2 : Option GoError) (sched : List Tick) :
    (run cfg ⟨o, wr, f⟩ sched).map (fun r => r.outcome) =
      (run cfg ⟨o, wr, f2⟩ sched).map (fun r => r.outcome) := by
  have key : ∀ dst, (runWriter ⟨o, wr, f⟩ dst sched).map (fun r => r.outcome) =
      (runWriter ⟨o, wr, f2⟩ dst sched).map (fun r => r.outcome) := by
    intro dst
    simp only [runWriter, Writer.Write, NewWriter, loop_flushErr o o wr f f2]
    cases hwr : wr 0 with
    | some e => simp [Writer.Flush]
    | none =>
      simp only [Option.map_map]
      cases loop ⟨o, wr, f2⟩ ⟨dst, 0 + 1, 0 + 1, none⟩ 0 sched with
      | none => rfl
      | some r1 =>
        simp only [Option.map_some', Function.comp, Option.some.injEq]
        by_cases hp : r1.2.2.Flush ⟨o, wr, f⟩ = .panic
        · rw [if_pos hp, if_pos ((flush_panic_flushErr o o wr f f2 _).mp hp)]
        · rw [if_neg hp, if_neg (fun h => hp ((flush_panic_flushErr o o wr f f2 _).mpr h))]
  unfold run
  split
  · cases o with
    | some e => rfl
    | none =>
      simp only [Option.map_map]
      have := key none
      simpa [Function.comp] using this
  · exact key _

/-! ## The stall timeout and the cancellation after some records

On standard output the two exits below end as the loop decides, for every
number of records received; in the file branch the same schedules end in the
panic of the deferred flush. -/

/-- Lines 82-122 when the stall timer is taken after the receives `ts`. -/
theorem runWriter_stall (env : Env) (dst : Option Handle) (ts : List Tick) (t : Tick)
    (rest : List Tick) (hts : ∀ x ∈ ts, x.takesRecv)
    (ht : t.chosen = .timeout ∧ t.ready.timeout = true)
    (hlen : ts.length ≤ records.length) (hw : ∀ j, j ≤ ts.length → env.writeErr j = none) :
    runWriter env dst (ts ++ t :: rest) =
      some ⟨.newWriter dst :: .write header none ::
          ((records.take ts.length).map fun row => Effect.write row none) ++
          [.log "\nGiving up waiting...", .log "Flushing writer...",
            .flush (((NewWriter dst).wrote (ts.length + 1)).Flush env)],
        if ((NewWriter dst).wrote (ts.length + 1)).Flush env = .panic then .panicked
        else .returned none⟩ := by
  rw [runWriter_recvs env dst ts (t :: rest) hts hw hlen]
  simp [loop, ht.1, ht.2]

/-- Lines 82-122 when the cancellation is taken after the receives `ts`. -/
theorem runWriter_cancel (env : Env) (dst : Option Handle) (ts : List Tick) (t : Tick)
    (rest : List Tick) (e : CtxErr) (hts : ∀ x ∈ ts, x.takesRecv)
    (ht : t.chosen = .done ∧ t.ready.done = some e)
    (hlen : ts.length ≤ records.length) (hw : ∀ j, j ≤ ts.length → env.writeErr j = none) :
    runWriter env dst (ts ++ t :: rest) =
      some ⟨.newWriter dst :: .write header none ::
          ((records.take ts.length).map fun row => Effect.write row none) ++
          [.log "Flushing writer...",
            .flush (((NewWriter dst).wrote (ts.length + 1)).Flush env)],
        if ((NewWriter dst).wrote (ts.length + 1)).Flush env = .panic then .panicked
        else .returned (some e.toError)⟩ := by
  rw [runWriter_recvs env dst ts (t :: rest) hts hw hlen]
  simp [loop, ht.1, ht.2]

/-- On standard output, the stall timer taken after `ts.length` records makes
`run` log the notice and return nil, with the header and those records
written. -/
theorem run_stdout_stall (cfg : config) (env : Env) (ts : List Tick) (t : Tick)
    (rest : List Tick) (hcfg : cfg.outputFile = "") (hts : ∀ x ∈ ts, x.takesRecv)
    (ht : t.chosen = .timeout ∧ t.ready.timeout = true)
    (hlen : ts.length ≤ records.length) (hw : ∀ j, j ≤ ts.length → env.writeErr j = none) :
    run cfg env (ts ++ t :: rest) =
      some ⟨.newWriter (some .stdout) :: .write header none ::
          ((records.take ts.length).map fun row => Effect.write row none) ++
          [.log "\nGiving up waiting...", .log "Flushing writer...",
            .flush (FlushRes.ofErr env.flushErr)],
        .returned none⟩ := by
  simp [run, hcfg, runWriter_stall env _ ts t rest hts ht hlen hw, flush_wrote_some,
    ofErr_ne_panic]

/-- On standard output, the cancellation taken after `ts.length` records makes
`run` return the error of the context, with the header and those records
written. -/
theorem run_stdout_cancel (cfg : config) (env : Env) (ts : List Tick) (t : Tick)
    (rest : List Tick) (e : CtxErr) (hcfg : cfg.outputFile = "") (hts : ∀ x ∈ ts, x.takesRecv)
    (ht : t.chosen = .done ∧ t.ready.done = some e)
    (hlen : ts.length ≤ records.length) (hw : ∀ j, j ≤ ts.length → env.writeErr j = none) :
    run cfg env (ts ++ t :: rest) =
      some ⟨.newWriter (some .stdout) :: .write header none ::
          ((records.take ts.length).map fun row => Effect.write row none) ++
          [.log "Flushing writer...", .flush (FlushRes.ofErr env.flushErr)],
        .returned (some e.toError)⟩ := by
  simp [run, hcfg, runWriter_cancel env _ ts t rest e hts ht hlen hw, flush_wrote_some,
    ofErr_ne_panic]

/-- In the file branch, with a file that opens, the stall timer taken after
`ts.length` records ends `run` in the panic of the deferred flush. -/
theorem run_file_stall (cfg : config) (env : Env) (ts : List Tick) (t : Tick)
    (rest : List Tick) (hcfg : cfg.outputFile ≠ "") (hopen : env.openErr = none)
    (hts : ∀ x ∈ ts, x.takesRecv) (ht : t.chosen = .timeout ∧ t.ready.timeout = true)
    (hlen : ts.length ≤ records.length) (hw : ∀ j, j ≤ ts.length → env.writeErr j = none) :
    (run cfg env (ts ++ t :: rest)).map (fun r => r.outcome) = some .panicked := by
  simp [run, hcfg, hopen, runWriter_stall env _ ts t rest hts ht hlen hw, flush_wrote_nil]

/-- In the file branch, with a file that opens, the cancellation taken after
`ts.length` records ends `run` in the panic of the deferred flush. -/
theorem run_file_cancel (cfg : config) (env : Env) (ts : List Tick) (t : Tick)
    (rest : List Tick) (e : CtxErr) (hcfg : cfg.outputFile ≠ "") (hopen : env.openErr = none)
    (hts : ∀ x ∈ ts, x.takesRecv) (ht : t.chosen = .done ∧ t.ready.done = some e)
    (hlen : ts.length ≤ records.length) (hw : ∀ j, j ≤ ts.length → env.writeErr j = none) :
    (run cfg env (ts ++ t :: rest)).map (fun r => r.outcome) = some .panicked := by
  simp [run, hcfg, hopen, runWriter_cancel env _ ts t rest e hts ht hlen hw, flush_wrote_nil]

/-- In the file branch the writer is never given the file: every writer `run`
creates there is over the nil destination. -/
theorem run_file_writer_nil (cfg : config) (env : Env) (sched : List Tick) (r : RunResult)
    (hcfg : cfg.outputFile ≠ "") (h : run cfg env sched = some r) (dst : Option Handle)
    (hd : Effect.newWriter dst ∈ r.trace) : dst = none := by
  unfold run at h
  rw [if_pos hcfg] at h
  split at h
  · simp only [Option.some.injEq] at h
    subst h
    simp at hd
  · cases hr : runWriter env none sched with
    | none => simp [hr] at h
    | some r1 =>
      simp only [hr, Option.map_some', Option.some.injEq] at h
      subst h
      obtain ⟨body, res, htr, hb⟩ := runWriter_shape env none sched r1 hr
      simp only [htr, List.mem_append, List.mem_cons, List.mem_singleton, List.not_mem_nil,
        or_false, Effect.newWriter.injEq, false_or, reduceCtorEq] at hd
      rcases hd with hd | hd
      · exact hd
      · rcases hb _ hd with h1 | h1
        · simp [Effect.isWrite] at h1
        · cases h1

/-! ## The claims -/

/-- C1: with the standard-output destination, when the three records and then
the end of the stream are received and no write fails, `run` returns nil and
the writer is handed the header and then the three records, in the producer's
order, each once. -/
theorem run_stdout_end_of_stream (cfg : config) (env : Env) (t0 t1 t2 t3 : Tick)
    (rest : List Tick) (hcfg : cfg.outputFile = "")
    (hw : ∀ n, n < 4 → env.writeErr n = none)
    (h0 : t0.takesRecv) (h1 : t1.takesRecv) (h2 : t2.takesRecv) (h3 : t3.takesRecv) :
    run cfg env (t0 :: t1 :: t2 :: t3 :: rest) =
      some ⟨[.newWriter (some .stdout),
          .write ["Email", "Status", "Balance"] none,
          .write ["john@example.com", "active", "$100.00"] none,
          .write ["jane@example.com", "inactive", "$50.00"] none,
          .write ["bob@example.com", "active", "$75.00"] none,
          .log "Flushing writer...",
          .flush (FlushRes.ofErr env.flushErr)],
        .returned none⟩ := by
  simp [run, runWriter, loop, hcfg, NewWriter, Writer.Write, Writer.Flush, header, records,
    hw 0, hw 1, hw 2, hw 3, h0.1, h0.2, h1.1, h1.2, h2.1, h2.2, h3.1, h3.2, ofErr_ne_panic]

/-- C1 on a run without flags in which no library call fails. -/
theorem run_stdout_end_of_stream_witness :
    run cfgStdout envOk [tRecv, tRecv, tRecv, tRecv] =
      some ⟨[.newWriter (some .stdout),
          .write ["Email", "Status", "Balance"] none,
          .write ["john@example.com", "active", "$100.00"] none,
          .write ["jane@example.com", "inactive", "$50.00"] none,
          .write ["bob@example.com", "active", "$75.00"] none,
          .log "Flushing writer...",
          .flush .ok],
        .returned none⟩ :=
  run_stdout_end_of_stream cfgStdout envOk tRecv tRecv tRecv tRecv [] rfl (fun _ _ => rfl)
    ⟨rfl, rfl⟩ ⟨rfl, rfl⟩ ⟨rfl, rfl⟩ ⟨rfl, rfl⟩

/-- C2, on the code: with `-o out.csv` and a file that opens, `csv.NewWriter`
receives the nil writer, not the file; the rows stay in the buffer, the
deferred flush panics and `run` does not return. -/
theorem run_file_nil_writer :
    run cfgFile envOk [tRecv, tRecv, tRecv, tRecv] =
      some ⟨[.openFile "out.csv" none,
          .newWriter none,
          .write ["Email", "Status", "Balance"] none,
          .write ["john@example.com", "active", "$100.00"] none,
          .write ["jane@example.com", "inactive", "$50.00"] none,
          .write ["bob@example.com", "active", "$75.00"] none,
          .log "Flushing writer...",
          .flush .panic,
          .close],
        .panicked⟩ := by
  decide

/-- C3: a run that has created its writer calls `writer.Flush` exactly once,
on every exit path, and no call of `writer.Write` follows it. -/
theorem run_flush_once (cfg : config) (env : Env) (sched : List Tick)
    (hadm : Admissible sched) (hlen : records.length < sched.length) :
    ∃ r, run cfg env sched = some r ∧
      ((∃ dst, Effect.newWriter dst ∈ r.trace) →
        ∃ pre res post, r.trace = pre ++ Effect.flush res :: post ∧
          (∀ x ∈ pre, x.isFlush = false) ∧
          (∀ x ∈ post, x.isFlush = false ∧ x.isWrite = false)) := by
  obtain ⟨r, hr⟩ := run_total cfg env sched hadm hlen
  refine ⟨r, hr, ?_⟩
  rintro ⟨dst, hdst⟩
  rcases run_shape cfg env sched r hr with ⟨err, htr, _⟩ | ⟨pre, body, res, post, htr, hpp, hb⟩
  · rw [htr] at hdst
    simp at hdst
  · refine ⟨pre ++ body ++ [.log "Flushing writer..."], res, post, by simp [htr], ?_, ?_⟩
    · exact before_flush cfg pre body post hpp hb
    · intro x hx
      rcases hpp with ⟨_, rfl⟩ | ⟨_, rfl⟩
      · simp at hx
      · simp only [List.mem_singleton] at hx
        subst hx
        exact ⟨rfl, rfl⟩

/-- C3 on a run that ends at the stall timeout after one record. -/
theorem run_flush_once_witness :
    ∃ r, run cfgStdout envOk [tRecv, tTimeout, tRecv, tRecv] = some r ∧
      ((∃ dst, Effect.newWriter dst ∈ r.trace) →
        ∃ pre res post, r.trace = pre ++ Effect.flush res :: post ∧
          (∀ x ∈ pre, x.isFlush = false) ∧
          (∀ x ∈ post, x.isFlush = false ∧ x.isWrite = false)) :=
  run_flush_once cfgStdout envOk [tRecv, tTimeout, tRecv, tRecv] (by decide) (by decide)

/-- C4, as the code has it: on standard output, when the context is already
done at the first `select` and the `select` takes the cancellation, `run`
returns the error of the context having written the header and no record. -/
theorem run_cancelled_first (cfg : config) (env : Env) (e : CtxErr) (t : Tick)
    (rest : List Tick) (hcfg : cfg.outputFile = "") (hw : env.writeErr 0 = none)
    (hd : t.ready.done = some e) (hc : t.chosen = .done) :
    run cfg env (t :: rest) =
      some ⟨[.newWriter (some .stdout),
          .write ["Email", "Status", "Balance"] none,
          .log "Flushing writer...",
          .flush (FlushRes.ofErr env.flushErr)],
        .returned (some e.toError)⟩ := by
  simp [run, runWriter, loop, hcfg, NewWriter, Writer.Write, Writer.Flush, header, hw, hd, hc,
    ofErr_ne_panic]

/-- C4, as the code has it, on a run whose deadline has passed before the
first `select`. -/
theorem run_cancelled_first_witness :
    run cfgStdout envOk [tDone .deadlineExceeded] =
      some ⟨[.newWriter (some .stdout),
          .write ["Email", "Status", "Balance"] none,
          .log "Flushing writer...",
          .flush .ok],
        .returned (some .deadlineExceeded)⟩ :=
  run_cancelled_first cfgStdout envOk .deadlineExceeded (tDone .deadlineExceeded) [] rfl rfl
    rfl rfl

/-- C4 fails as stated: the context is done before the loop starts and stays
so, the producer is ready as well, and the `select` takes the receive each
time, which is one of the ready cases; `run` writes the three records and
returns nil. -/
theorem run_cancelled_receive_taken :
    (tRecvWhileDone .canceled).ready.done = some .canceled ∧
    (tRecvWhileDone .canceled).ok = true ∧
    run cfgStdout envOk [tRecvWhileDone .canceled, tRecvWhileDone .canceled,
        tRecvWhileDone .canceled, tRecvWhileDone .canceled] =
      some ⟨[.newWriter (some .stdout),
          .write ["Email", "Status", "Balance"] none,
          .write ["john@example.com", "active", "$100.00"] none,
          .write ["jane@example.com", "inactive", "$50.00"] none,
          .write ["bob@example.com", "active", "$75.00"] none,
          .log "Flushing writer...",
          .flush .ok],
        .returned none⟩ := by
  decide

/-- C5, on the code: with `-o out.csv` and a file that opens, one record is
received and then the stall timer fires; the stall notice is logged, and the
deferred flush of the nil writer panics, so `run` does not return nil. -/
theorem run_file_stall_panics :
    run cfgFile envOk [tRecv, tTimeout] =
      some ⟨[.openFile "out.csv" none,
          .newWriter none,
          .write ["Email", "Status", "Balance"] none,
          .write ["john@example.com", "active", "$100.00"] none,
          .log "\nGiving up waiting...",
          .log "Flushing writer...",
          .flush .panic,
          .close],
        .panicked⟩ := by
  decide

/-- C6: when a call of `writer.Write` fails (call `ts.length`, the header
being call 0, after the receives `ts`), `run` returns at once an error whose
text ends with the text of the write error; the calls of `writer.Write` of the
run are the earlier rows and the failing one, and nothing the schedule offers
afterwards is received. -/
theorem run_write_error (cfg : config) (env : Env) (e : GoError) (ts : List Tick)
    (hopen : cfg.outputFile ≠ "" → env.openErr = none)
    (hts : ∀ t ∈ ts, t.takesRecv) (hlen : ts.length ≤ records.length)
    (hprev : ∀ j, j < ts.length → env.writeErr j = none)
    (hfail : env.writeErr ts.length = some e) :
    ∃ r row, (∀ rest, run cfg env (ts ++ rest) = some r) ∧
      (header :: records)[ts.length]? = some row ∧
      r.outcome = .returned (some (.errorString ("failed to write header row: " ++ e.Error))) ∧
      writes r.trace =
        ((header :: records).take ts.length).map (fun x => (x, none)) ++ [(row, some e)] := by
  have key : ∀ dst : Option Handle, ∃ r row, (∀ rest, runWriter env dst (ts ++ rest) = some r) ∧
      (header :: records)[ts.length]? = some row ∧
      r.outcome = .returned (some (.errorString ("failed to write header row: " ++ e.Error))) ∧
      writes r.trace =
        ((header :: records).take ts.length).map (fun x => (x, none)) ++ [(row, some e)] := by
    intro dst
    rcases List.eq_nil_or_concat ts with rfl | ⟨L, b, hLb⟩
    on_goal 2 => rw [List.concat_eq_append] at hLb; subst hLb
    · simp only [List.length_nil] at hfail
      refine ⟨⟨[.newWriter dst, .write header (some e), .log "Flushing writer...",
          .flush (.failed e)], .returned (some (Errorf "failed to write header row: " e))⟩,
        header, fun rest => ?_, rfl, ?_, ?_⟩
      · simp [runWriter, NewWriter, Writer.Write, hfail, Writer.Flush]
      · exact congrArg (fun x => Outcome.returned (some x)) (Errorf_write e)
      · simp [writes]
    · simp only [List.length_append, List.length_singleton] at hfail hlen hprev
      have hL : ∀ t ∈ L, t.takesRecv := fun t ht => hts t (List.mem_append_left _ ht)
      have hb : b.takesRecv := hts b (by simp)
      have hk : L.length < records.length := by omega
      have hrec : records[L.length]? = some records[L.length] := List.getElem?_eq_getElem hk
      refine ⟨⟨.newWriter dst :: .write header none ::
            ((records.take L.length).map fun row => Effect.write row none) ++
            [.write records[L.length] (some e)] ++ [.log "Flushing writer...", .flush (.failed e)],
          .returned (some (Errorf "failed to write header row: " e))⟩,
        records[L.length], fun rest => ?_, ?_, ?_, ?_⟩
      · rw [List.append_assoc, runWriter_recvs env dst L ([b] ++ rest) hL
          (fun j hj => hprev j (by omega)) (by omega)]
        simp [loop, hb.1, hb.2, hrec, Writer.Write, Writer.wrote, NewWriter, hfail,
          Writer.Flush]
      · simp [hrec]
      · exact congrArg (fun x => Outcome.returned (some x)) (Errorf_write e)
      · have : List.take (L.length + 1) records =
            List.take L.length records ++ [records[L.length]] := by
          rw [List.take_succ, hrec]; rfl
        simp [writes, writes_append, this]
        rw [← List.map_take, ← List.map_take, writes_map_write]
  by_cases hf : cfg.outputFile = ""
  · obtain ⟨r, row, h1, h2, h3, h4⟩ := key (some .stdout)
    exact ⟨r, row, fun rest => by simp [run, hf, h1 rest], h2, h3, h4⟩
  · obtain ⟨r, row, h1, h2, h3, h4⟩ := key none
    refine ⟨⟨.openFile cfg.outputFile none :: r.trace ++ [.close], r.outcome⟩, row,
      fun rest => by simp [run, hf, hopen hf, h1 rest], h2, h3, ?_⟩
    simp [writes, writes_append, h4]

/-- C6 on a run in which the write of the second record fails. -/
theorem run_write_error_witness :
    ∃ r row, (∀ rest, run cfgStdout envWriteFails ([tRecv, tRecv] ++ rest) = some r) ∧
      (header :: records)[[tRecv, tRecv].length]? = some row ∧
      r.outcome = .returned (some (.errorString ("failed to write header row: " ++
        (GoError.errorString "short write").Error))) ∧
      writes r.trace =
        ((header :: records).take [tRecv, tRecv].length).map (fun x => (x, none)) ++
          [(row, some (.errorString "short write"))] :=
  run_write_error cfgStdout envWriteFails (.errorString "short write") [tRecv, tRecv]
    (fun h => absurd rfl h) (by decide) (by decide)
    (fun j hj => by
      have : j ≠ 2 := by simp at hj; omega
      simp [envWriteFails, this])
    rfl

/-- C7: the callback of `logger cfg` writes the formatted message and then a
newline when `cfg.verbose` is true and `cfg.quiet` is false, and nothing
otherwise; all it writes goes to the standard error stream. -/
theorem logger_spec {α : Type} (Sprintf : String → List α → String) (cfg : config)
    (format : String) (args : List α) :
    logger Sprintf cfg format args =
        (if cfg.verbose = true ∧ cfg.quiet = false
          then [(Handle.stderr, Sprintf format args), (Handle.stderr, "\n")] else []) ∧
      (logger Sprintf cfg format args ≠ [] ↔ (cfg.verbose = true ∧ cfg.quiet = false)) ∧
      ∀ x ∈ logger Sprintf cfg format args, x.1 = Handle.stderr := by
  obtain ⟨q, v, o⟩ := cfg
  cases q <;> cases v <;> simp [logger]

/-- C8, as the code has it: whether or not the final flush fails, `run` ends
the same way; no call of the `log` callback follows the flush, so that a
failure of the flush is not logged, and the call that precedes it has the
format "Flushing writer...". -/
theorem run_flush_failure_silent (cfg : config) (env : Env) (e : GoError) (sched : List Tick)
    (hadm : Admissible sched) (hlen : records.length < sched.length) :
    ∃ r r2, run cfg ⟨env.openErr, env.writeErr, some e⟩ sched = some r ∧
      run cfg ⟨env.openErr, env.writeErr, none⟩ sched = some r2 ∧
      r.outcome = r2.outcome ∧
      (∀ x ∈ afterFlush r.trace, x.isLog = false) ∧
      ∀ res, Effect.flush res ∈ r.trace →
        ∃ pre post, r.trace = pre ++ .log "Flushing writer..." :: .flush res :: post := by
  obtain ⟨r, hr⟩ := run_total cfg ⟨env.openErr, env.writeErr, some e⟩ sched hadm hlen
  obtain ⟨r2, hr2⟩ := run_total cfg ⟨env.openErr, env.writeErr, none⟩ sched hadm hlen
  refine ⟨r, r2, hr, hr2, ?_, ?_, ?_⟩
  · have := run_outcome_flushErr cfg env.openErr env.writeErr (some e) none sched
    rw [hr, hr2] at this
    simpa using this
  · rcases run_shape cfg _ sched r hr with ⟨err, htr, _⟩ | ⟨pre, body, res, post, htr, hpp, hb⟩
    · rw [htr]
      simp [afterFlush]
    · have e1 : r.trace = (pre ++ body ++ [.log "Flushing writer..."]) ++ .flush res :: post := by
        simp [htr]
      rw [e1, afterFlush_append]
      · rcases hpp with ⟨_, rfl⟩ | ⟨_, rfl⟩ <;> simp [Effect.isLog]
      · exact before_flush cfg pre body post hpp hb
  · intro res0 hmem
    rcases run_shape cfg _ sched r hr with ⟨err, htr, _⟩ | ⟨pre, body, res, post, htr, hpp, hb⟩
    · rw [htr] at hmem
      simp at hmem
    · have hres : res0 = res := by
        rw [htr] at hmem
        simp only [List.mem_append, List.mem_cons, List.mem_singleton, List.not_mem_nil,
          or_false, Effect.flush.injEq, reduceCtorEq, false_or] at hmem
        rcases hmem with ((hm | hm) | hm) | hm
        · rcases hpp with ⟨rfl, _⟩ | ⟨rfl, _⟩ <;> simp at hm
        · rcases hb _ hm with h1 | h1
          · simp [Effect.isWrite] at h1
          · cases h1
        · exact hm
        · rcases hpp with ⟨_, rfl⟩ | ⟨_, rfl⟩ <;> simp at hm
      subst hres
      exact ⟨pre ++ body, post, by simp [htr]⟩

/-- C8, as the code has it, on a run to the end of the stream whose final
flush finds the device of standard output full. -/
theorem run_flush_failure_silent_witness :
    ∃ r r2, run cfgStdout ⟨envOk.openErr, envOk.writeErr, some errNoSpace⟩
        [tRecv, tRecv, tRecv, tRecv] = some r ∧
      run cfgStdout ⟨envOk.openErr, envOk.writeErr, none⟩ [tRecv, tRecv, tRecv, tRecv] = some r2 ∧
      r.outcome = r2.outcome ∧
      (∀ x ∈ afterFlush r.trace, x.isLog = false) ∧
      ∀ res, Effect.flush res ∈ r.trace →
        ∃ pre post, r.trace = pre ++ .log "Flushing writer..." :: .flush res :: post :=
  run_flush_failure_silent cfgStdout envOk errNoSpace [tRecv, tRecv, tRecv, tRecv]
    (by decide) (by decide)

/-- C8 fails as stated: standard output is a file on a full device, the final
flush gets the error of the write, the last call of the `log` callback
precedes the flush and the trace ends with the failed flush; nothing is logged
about the failure, and `run` returns nil. -/
theorem run_flush_failure_not_logged :
    run cfgStdout ⟨none, fun _ => none, some errNoSpace⟩ [tRecv, tRecv, tRecv, tRecv] =
      some ⟨[.newWriter (some .stdout),
          .write ["Email", "Status", "Balance"] none,
          .write ["john@example.com", "active", "$100.00"] none,
          .write ["jane@example.com", "inactive", "$50.00"] none,
          .write ["bob@example.com", "active", "$75.00"] none,
          .log "Flushing writer...",
          .flush (.failed errNoSpace)],
        .returned none⟩ := by
  decide

/-- C9, on the code: with `-o out.csv` and a file that opens, one record is
received and then the cancellation is taken; the deferred flush of the nil
writer panics, so `run` does not return the error of the context. -/
theorem run_file_cancel_panics :
    run cfgFile envOk [tRecv, tDone .canceled] =
      some ⟨[.openFile "out.csv" none,
          .newWriter none,
          .write ["Email", "Status", "Balance"] none,
          .write ["john@example.com", "active", "$100.00"] none,
          .log "Flushing writer...",
          .flush .panic,
          .close],
        .panicked⟩ := by
  decide

/-- C10, as the code has it: `main` calls the `log` callback with "Done."
exactly when `run` returns nil; when `run` returns an error, `main` prints its
text and a newline on the standard error stream and exits with status 1,
without that call. -/
theorem main_done_iff_nil (o : String) (v q : Bool) (env : Env) (sched : List Tick)
    (hadm : Admissible sched) (hlen : records.length < sched.length) :
    ∃ r m, run ⟨q, v, o⟩ env sched = some r ∧ main o v q env sched = some m ∧
      (Effect.log "Done." ∈ m.trace ↔ r.outcome = .returned none) ∧
      (r.outcome = .returned none → m.trace = r.trace ++ [.log "Done."] ∧ m.status = 0) ∧
      (∀ err, r.outcome = .returned (some err) →
        m.trace = r.trace ++ [.stderr err.Error, .stderr "\n", .osExit 1] ∧ m.status = 1) := by
  obtain ⟨r, hr⟩ := run_total ⟨q, v, o⟩ env sched hadm hlen
  have hno : Effect.log "Done." ∉ r.trace := by
    intro hmem
    rcases run_logs _ env sched r hr "Done." hmem with h | h <;> exact absurd h (by decide)
  obtain ⟨tr, oc⟩ := r
  simp only at hno
  cases oc with
  | returned ret =>
    cases ret with
    | none =>
      exact ⟨_, ⟨tr ++ [.log "Done."], 0⟩, hr, by simp [main, flagsToConfig, hr], by simp,
        by simp, by simp⟩
    | some err =>
      refine ⟨_, ⟨tr ++ errAndExit err.Error, 1⟩, hr, by simp [main, flagsToConfig, hr], ?_,
        by simp, ?_⟩
      · simp [errAndExit, hno]
      · intro err2 h2
        simp only [Outcome.returned.injEq, Option.some.injEq] at h2
        subst h2
        simp [errAndExit]
  | panicked =>
    exact ⟨_, ⟨tr, 2⟩, hr, by simp [main, flagsToConfig, hr], by simp [hno], by simp, by simp⟩

/-- C10, as the code has it, on a verbose run to the end of the stream. -/
theorem main_done_iff_nil_witness :
    ∃ r m, run ⟨false, true, ""⟩ envOk [tRecv, tRecv, tRecv, tRecv] = some r ∧
      main "" true false envOk [tRecv, tRecv, tRecv, tRecv] = some m ∧
      (Effect.log "Done." ∈ m.trace ↔ r.outcome = .returned none) ∧
      (r.outcome = .returned none → m.trace = r.trace ++ [.log "Done."] ∧ m.status = 0) ∧
      (∀ err, r.outcome = .returned (some err) →
        m.trace = r.trace ++ [.stderr err.Error, .stderr "\n", .osExit 1] ∧ m.status = 1) :=
  main_done_iff_nil "" true false envOk [tRecv, tRecv, tRecv, tRecv] (by decide) (by decide)

/-- C10 fails as stated: when `run` returns the cancellation error, `main`
prints it and exits with status 1; "Done." is not logged. -/
theorem main_cancelled_no_done :
    main "" true false envOk [tRecv, tDone .canceled] =
      some ⟨[.newWriter (some .stdout),
          .write ["Email", "Status", "Balance"] none,
          .write ["john@example.com", "active", "$100.00"] none,
          .log "Flushing writer...",
          .flush .ok,
          .stderr "context canceled",
          .stderr "\n",
          .osExit 1], 1⟩ := by
  decide

end VariableShadowing
